import Mathlib

/-!
Shallow embedding of the Zeno autoscaling controller (Go) in Lean 4,
together with theorems settling the specification claims about it.

Conventions of the embedding:
* Go `int` values (queue depths, runner counts, thresholds, hysteresis
  counters) are modelled as `Int`; none of the verified paths can
  overflow a 64-bit machine integer on the inputs considered.
* Go `time.Time` / `time.Duration` are modelled as `Int` nanoseconds;
  `now.Sub(t) < d` becomes `now - t < d`.
* Go `float64` arithmetic (retry backoff, predictive scaling) is
  modelled over `ℚ` with the same formulas; `rand.Float64()` becomes an
  explicit parameter `r : ℚ` with `0 ≤ r ≤ 1`.
* Stateful methods become explicit state-passing functions; fallible
  operations return `Except`.
-/

namespace Zeno

/-- Mirror of `controller.ScaleAction` (controller.go). -/
inductive ScaleAction
  | none
  | up
  | down
deriving Repr, DecidableEq

/-- Mirror of `controller.ScaleDecision` (controller.go). -/
structure ScaleDecision where
  action : ScaleAction
  reason : String
  currentCount : Int
  desiredCount : Int
  queueDepth : Int
  hysteresisHit : Bool
deriving Repr, DecidableEq

/-- Mirror of the `config.ScalingConfig` fields consumed by the
controller (config.go, v2 layout), with durations in nanoseconds. -/
structure ScalingConfig where
  minRunners : Int
  maxRunners : Int
  scaleUpThreshold : Int
  scaleDownThreshold : Int
  scaleUpHysteresis : Int
  scaleDownHysteresis : Int
  cooldownPeriod : Int
  enablePredictiveScaling : Bool
  gracefulTermination : Bool
deriving Repr, DecidableEq

/-- The mutable scaling state of `controller.Controller`
(`lastScaleUpTime`, `lastScaleDownTime`, `scaleUpCounter`,
`scaleDownCounter`, `queueHistory`). -/
structure CtrlState where
  lastScaleUpTime : Int
  lastScaleDownTime : Int
  scaleUpCounter : Int
  scaleDownCounter : Int
  queueHistory : List Int
deriving Repr, DecidableEq

/-- Mirror of `Controller.inCooldownPeriod` (controller.go:389-402). -/
def inCooldownPeriod (cfg : ScalingConfig) (st : CtrlState) (now : Int) : Bool :=
  if now - st.lastScaleUpTime < cfg.cooldownPeriod then true
  else if now - st.lastScaleDownTime < cfg.cooldownPeriod then true
  else false

/-- Truncation of a rational toward zero, mirroring Go `int(f)` on a
`float64`. -/
def ratTrunc (x : ℚ) : Int :=
  if 0 ≤ x then ⌊x⌋ else ⌈x⌉

/-- Mirror of `Controller.predictQueueGrowth` (controller.go:416-441),
with the `float64` arithmetic carried out over `ℚ`. -/
def predictQueueGrowth (hist : List Int) : Int :=
  if hist.length < 5 then 0
  else
    let windowSize := Nat.min 10 hist.length
    let recent := hist.drop (hist.length - windowSize)
    let totalGrowth : ℚ :=
      (((recent.zip recent.tail).map (fun p => p.2 - p.1)).sum : Int)
    let avgGrowth : ℚ := totalGrowth / ((recent.length : ℚ) - 1)
    let currentQueue : ℚ := ((hist.getLast?.getD 0 : Int) : ℚ)
    let predicted : ℚ := currentQueue + avgGrowth * 3
    max 0 (ratTrunc predicted)

/-- The effective queue depth used by `makeScalingDecision` after the
predictive-scaling adjustment (controller.go:180-189): the predicted
value replaces the observed one only when it is larger. -/
def effectiveQueue (cfg : ScalingConfig) (hist : List Int) (queueDepth : Int) : Int :=
  if cfg.enablePredictiveScaling then
    let predictedQueue := predictQueueGrowth hist
    if predictedQueue > queueDepth then predictedQueue else queueDepth
  else queueDepth

/-- The hysteresis-pending reason string
`fmt.Sprintf("hysteresis_check_%d_of_%d", k, h)`. -/
def hysteresisReason (k h : Int) : String :=
  "hysteresis_check_" ++ toString k ++ "_of_" ++ toString h

/-- Mirror of `Controller.makeScalingDecision` (controller.go:165-248)
as a state-passing function: it returns the decision together with the
updated controller state (only the two hysteresis counters are ever
written). -/
def makeScalingDecision (cfg : ScalingConfig) (st : CtrlState) (now : Int)
    (queueDepth currentCount : Int) : ScaleDecision × CtrlState :=
  let base : ScaleDecision :=
    { action := .none
      reason := ""
      currentCount := currentCount
      desiredCount := currentCount
      queueDepth := queueDepth
      hysteresisHit := false }
  if inCooldownPeriod cfg st now then
    ({ base with reason := "in_cooldown_period" }, st)
  else
    let q := effectiveQueue cfg st.queueHistory queueDepth
    if q ≥ cfg.scaleUpThreshold then
      let desired := max (min q cfg.maxRunners) cfg.minRunners
      if desired > currentCount then
        let counter := st.scaleUpCounter + 1
        if counter ≥ cfg.scaleUpHysteresis then
          ({ base with
              action := .up
              desiredCount := desired
              reason := "queue_above_threshold" },
           { st with scaleUpCounter := 0, scaleDownCounter := 0 })
        else
          ({ base with
              hysteresisHit := true
              reason := hysteresisReason counter cfg.scaleUpHysteresis },
           { st with scaleUpCounter := counter })
      else (base, st)
    else if q ≤ cfg.scaleDownThreshold then
      let desired := max q cfg.minRunners
      if desired < currentCount then
        let counter := st.scaleDownCounter + 1
        if counter ≥ cfg.scaleDownHysteresis then
          ({ base with
              action := .down
              desiredCount := desired
              reason := "queue_below_threshold" },
           { st with scaleDownCounter := 0, scaleUpCounter := 0 })
        else
          ({ base with
              hysteresisHit := true
              reason := hysteresisReason counter cfg.scaleDownHysteresis },
           { st with scaleDownCounter := counter })
      else (base, st)
    else
      ({ base with reason := "queue_in_normal_range" },
       { st with scaleUpCounter := 0, scaleDownCounter := 0 })

/-- Mirror of `provider.RunnerStatus` (provider.go). -/
inductive RunnerStatus
  | pending
  | provisioning
  | running
  | idle
  | busy
  | terminating
  | terminated
  | failed
deriving Repr, DecidableEq

/-- The fields of `provider.Runner` relevant to scaling:
controller-assigned id, backend id, status and creation time. -/
structure Runner where
  id : String
  name : String
  providerID : String
  status : RunnerStatus
  createdAt : Int
deriving Repr, DecidableEq

/-- Mirror of `store.ScaleEvent` (store.go). -/
structure ScaleEvent where
  timestamp : Int
  action : String
  reason : String
  queueDepth : Int
  runnersBefore : Int
  runnersAfter : Int
deriving Repr, DecidableEq

/-- Mirror of `store.StoreConfig` (store.go); the file path is kept
abstract. -/
structure StoreConfig where
  enabled : Bool
  maxEvents : Int
deriving Repr, DecidableEq

/-- Mirror of `store.Store`: the in-memory event slice plus the last
contents written to the persistence file (`none` while nothing has been
persisted). -/
structure Store where
  config : StoreConfig
  events : List ScaleEvent
  file : Option (List ScaleEvent)
deriving Repr, DecidableEq

/-- Mirror of `Store.RecordScaleEvent` (store.go:50-67): a no-op when
the store is disabled; otherwise append, trim to the last `MaxEvents`
entries, and rewrite the whole log to the file. -/
def recordScaleEvent (s : Store) (e : ScaleEvent) : Store :=
  if !s.config.enabled then s
  else
    let evs := s.events ++ [e]
    let evs :=
      if (evs.length : Int) > s.config.maxEvents then
        evs.drop ((evs.length : Int) - s.config.maxEvents).toNat
      else evs
    { s with events := evs, file := some evs }

/-- Fold of `recordScaleEvent` over a list of events, modelling a
sequence of appends. -/
def recordAll (s : Store) (es : List ScaleEvent) : Store :=
  es.foldl recordScaleEvent s

/-- One provider operation issued during scaling, for the call trace. -/
inductive ProviderOp
  | create (name : String)
  | remove (id : String) (graceful : Bool)
deriving Repr, DecidableEq

/-- The provider- and store-side state touched by `executeScaling`:
the runner inventory, the event store, and the trace of provider calls
issued. -/
structure ExecWorld where
  runners : List Runner
  store : Store
  ops : List ProviderOp
deriving Repr, DecidableEq

/-- Whether `Controller.scaleDown` may select a runner for removal
(controller.go:348): only status `idle` or `running` qualifies. -/
def eligibleForRemoval (r : Runner) : Bool :=
  r.status == .idle || r.status == .running

/-- The removal loop of `Controller.scaleDown` (controller.go:342-380),
with every provider removal succeeding: walk the listed runners in
order, skip ineligible ones, and stop once `count` runners have been
removed. Returns the issued removal ops, the recorded events, and the
removed runners in removal order; `removed` is the number removed so
far (for the `RunnersAfter` field). -/
def scaleDownLoop (graceful : Bool) (d : ScaleDecision) (now : Int) :
    List Runner → Int → Int → List ProviderOp × List ScaleEvent × List Runner
  | [], _, _ => ([], [], [])
  | r :: rs, count, removed =>
    if removed ≥ count then ([], [], [])
    else if eligibleForRemoval r then
      let ev : ScaleEvent :=
        { timestamp := now
          action := "scale_down"
          reason := d.reason
          queueDepth := d.queueDepth
          runnersBefore := d.currentCount
          runnersAfter := d.currentCount - (removed + 1) }
      let rest := scaleDownLoop graceful d now rs count (removed + 1)
      (.remove r.id graceful :: rest.1, ev :: rest.2.1, r :: rest.2.2)
    else scaleDownLoop graceful d now rs count removed

/-- Mirror of `Controller.scaleDown` (controller.go:326-387) with all
removals succeeding: run the removal loop over the freshly listed
runners, record the events, and stamp `lastScaleDownTime`. -/
def scaleDown (cfg : ScalingConfig) (st : CtrlState) (w : ExecWorld)
    (now : Int) (d : ScaleDecision) : CtrlState × ExecWorld :=
  let count := d.currentCount - d.desiredCount
  let (ops, evs, removedRunners) :=
    scaleDownLoop cfg.gracefulTermination d now w.runners count 0
  let removedIds := removedRunners.map (fun r => r.id)
  let w' : ExecWorld :=
    { runners := w.runners.filter (fun r => !(removedIds.contains r.id))
      store := recordAll w.store evs
      ops := w.ops ++ ops }
  ({ st with lastScaleDownTime := now }, w')

/-- The creation loop of `Controller.scaleUp` (controller.go:283-317)
with every provider creation succeeding; `mkRunner i` models the runner
the provider returns for the i-th create call. -/
def scaleUpLoop (d : ScaleDecision) (now : Int) (mkRunner : Nat → Runner) :
    (need i : Nat) → List ProviderOp × List ScaleEvent × List Runner
  | 0, _ => ([], [], [])
  | need + 1, i =>
    let r := mkRunner i
    let ev : ScaleEvent :=
      { timestamp := now
        action := "scale_up"
        reason := d.reason
        queueDepth := d.queueDepth
        runnersBefore := d.currentCount
        runnersAfter := d.currentCount + i + 1 }
    let rest := scaleUpLoop d now mkRunner need (i + 1)
    (.create r.name :: rest.1, ev :: rest.2.1, r :: rest.2.2)

/-- Mirror of `Controller.scaleUp` (controller.go:274-324) with all
creations succeeding: issue `desired - current` create calls, record an
event per success, and stamp `lastScaleUpTime`. -/
def scaleUp (st : CtrlState) (w : ExecWorld) (now : Int)
    (mkRunner : Nat → Runner) (d : ScaleDecision) : CtrlState × ExecWorld :=
  let need := (d.desiredCount - d.currentCount).toNat
  let (ops, evs, created) := scaleUpLoop d now mkRunner need 0
  let w' : ExecWorld :=
    { runners := w.runners ++ created
      store := recordAll w.store evs
      ops := w.ops ++ ops }
  ({ st with lastScaleUpTime := now }, w')

/-- Mirror of `Controller.executeScaling` (controller.go:250-272):
return unchanged on a `none` decision, short-circuit in dry-run mode
before any provider call, otherwise dispatch to scale up or down. -/
def executeScaling (cfg : ScalingConfig) (dryRun : Bool) (st : CtrlState)
    (w : ExecWorld) (now : Int) (mkRunner : Nat → Runner)
    (d : ScaleDecision) : CtrlState × ExecWorld :=
  if d.action = .none then (st, w)
  else if dryRun then (st, w)
  else
    match d.action with
    | .up => scaleUp st w now mkRunner d
    | .down => scaleDown cfg st w now d
    | .none => (st, w)

/-- The error kinds a single `fetchQueuedJobs` call (client.go:134-194)
can produce: a transport failure, a rate-limit response, a JSON decode
failure of the response body, or an unexpected HTTP status. -/
inductive FetchErr
  | network
  | rateLimited
  | decodeFailure
  | badStatus (code : Int)
deriving Repr, DecidableEq

/-- The error returned by the retry loop: either an error deemed
non-retriable (returned as-is), or the `max retries exceeded` error
wrapping the last error seen. -/
inductive RetryError
  | terminal (e : FetchErr)
  | maxRetriesExceeded (last : Option FetchErr)
deriving Repr, DecidableEq

/-- Mirror of `Client.shouldRetry` (client.go:216-225): rate-limit
errors are retried, and the fallback for every other error is also
`true`. -/
def shouldRetry (e : FetchErr) : Bool :=
  match e with
  | .rateLimited => true
  | _ => true

/-- Mirror of `Client.calculateBackoff` (client.go:196-214) over `ℚ`:
exponential backoff `base * 2^(attempt-1)` capped at `maxB`, then a
jitter of `capped * 0.25 * (2r - 1)` added, where `r` models
`rand.Float64()`. -/
def calculateBackoff (base maxB : ℚ) (attempt : Nat) (r : ℚ) : ℚ :=
  let backoff := base * 2 ^ (attempt - 1)
  let capped := if backoff > maxB then maxB else backoff
  let jitter := capped * (1 / 4) * (2 * r - 1)
  capped + jitter

/-- Result of the retry loop: the final outcome, the number of fetch
attempts actually made, and the backoff delays slept through, in
order. -/
structure FetchOutcome where
  result : Except RetryError Int
  attemptsMade : Nat
  delays : List ℚ
deriving Repr

/-- Mirror of the loop body of `Client.fetchQueuedJobsWithRetry`
(client.go:100-132), parametrised by the per-attempt fetch result and
the jitter oracle `rs`; `attempt` is the current loop index and
`lastErr` the last error seen. -/
def fetchRetryFrom (base maxB : ℚ) (rs : Nat → ℚ)
    (fetch : Nat → Except FetchErr Int) :
    (remaining attempt : Nat) → (lastErr : Option FetchErr) → FetchOutcome
  | 0, attempt, lastErr => ⟨.error (.maxRetriesExceeded lastErr), attempt, []⟩
  | remaining + 1, attempt, _ =>
    let waited : List ℚ :=
      if attempt > 0 then [calculateBackoff base maxB attempt (rs attempt)]
      else []
    match fetch attempt with
    | .ok v => ⟨.ok v, attempt + 1, waited⟩
    | .error e =>
      if shouldRetry e then
        let rest := fetchRetryFrom base maxB rs fetch remaining (attempt + 1) (some e)
        ⟨rest.result, rest.attemptsMade, waited ++ rest.delays⟩
      else ⟨.error (.terminal e), attempt + 1, waited⟩

/-- Mirror of `Client.fetchQueuedJobsWithRetry` (client.go:100-132):
run the loop body for attempts `0 .. maxRetries` (the `remaining`
counter is `maxRetries + 1 - attempt`, so the loop exits with the
`max retries exceeded` error when it reaches zero), starting from
attempt 0 with no last error. -/
def fetchQueuedJobsWithRetry (base maxB : ℚ) (rs : Nat → ℚ)
    (maxRetries : Nat) (fetch : Nat → Except FetchErr Int) : FetchOutcome :=
  fetchRetryFrom base maxB rs fetch (maxRetries + 1) 0 none

/-- Mirror of `DockerProvider.RemoveRunner` (docker provider): look the
runner up by controller id via `GetRunner` (which searches the listed
runners); an absent id yields the `runner not found` error and no state
change, otherwise the container is stopped/removed. Returns the call
result together with the resulting provider inventory. -/
def dockerRemoveRunner (world : List Runner) (id : String)
    (graceful : Bool) : Except String Unit × List Runner :=
  match world.find? (fun r => r.id == id) with
  | Option.none => (.error ("runner " ++ id ++ " not found"), world)
  | some r => (.ok (), world.filter (fun x => !(x.providerID == r.providerID)))

/-- Mirror of `EC2Provider.RemoveRunner` (ec2.go:190-216): look the
runner up by its runner-id tag via `GetRunner`; an absent id yields the
`runner not found` error and no state change, otherwise instance
termination is initiated. -/
def ec2RemoveRunner (world : List Runner) (id : String)
    (graceful : Bool) : Except String Unit × List Runner :=
  match world.find? (fun r => r.id == id) with
  | Option.none => (.error ("runner " ++ id ++ " not found"), world)
  | some r =>
    (.ok (),
     world.map (fun x =>
       if x.providerID == r.providerID then { x with status := .terminating } else x))

/-! ### Branch lemmas for `makeScalingDecision` -/

/-- The base decision record built at the top of `makeScalingDecision`. -/
def baseDecision (queueDepth currentCount : Int) : ScaleDecision :=
  { action := .none
    reason := ""
    currentCount := currentCount
    desiredCount := currentCount
    queueDepth := queueDepth
    hysteresisHit := false }

theorem makeScalingDecision_cooldown (cfg : ScalingConfig) (st : CtrlState)
    (now q c : Int) (h : inCooldownPeriod cfg st now = true) :
    makeScalingDecision cfg st now q c =
      ({ baseDecision q c with reason := "in_cooldown_period" }, st) := by
  simp [makeScalingDecision, baseDecision, h]

theorem makeScalingDecision_up_fire (cfg : ScalingConfig) (st : CtrlState)
    (now q c : Int) (hcool : inCooldownPeriod cfg st now = false)
    (hq : effectiveQueue cfg st.queueHistory q ≥ cfg.scaleUpThreshold)
    (hd : max (min (effectiveQueue cfg st.queueHistory q) cfg.maxRunners) cfg.minRunners > c)
    (hk : st.scaleUpCounter + 1 ≥ cfg.scaleUpHysteresis) :
    makeScalingDecision cfg st now q c =
      ({ baseDecision q c with
          action := .up
          desiredCount := max (min (effectiveQueue cfg st.queueHistory q) cfg.maxRunners) cfg.minRunners
          reason := "queue_above_threshold" },
       { st with scaleUpCounter := 0, scaleDownCounter := 0 }) := by
  simp [makeScalingDecision, baseDecision, hcool, hq, hd, hk]

theorem makeScalingDecision_up_pending (cfg : ScalingConfig) (st : CtrlState)
    (now q c : Int) (hcool : inCooldownPeriod cfg st now = false)
    (hq : effectiveQueue cfg st.queueHistory q ≥ cfg.scaleUpThreshold)
    (hd : max (min (effectiveQueue cfg st.queueHistory q) cfg.maxRunners) cfg.minRunners > c)
    (hk : ¬ st.scaleUpCounter + 1 ≥ cfg.scaleUpHysteresis) :
    makeScalingDecision cfg st now q c =
      ({ baseDecision q c with
          hysteresisHit := true
          reason := hysteresisReason (st.scaleUpCounter + 1) cfg.scaleUpHysteresis },
       { st with scaleUpCounter := st.scaleUpCounter + 1 }) := by
  simp [makeScalingDecision, baseDecision, hcool, hq, hd, hk]

theorem makeScalingDecision_up_nocand (cfg : ScalingConfig) (st : CtrlState)
    (now q c : Int) (hcool : inCooldownPeriod cfg st now = false)
    (hq : effectiveQueue cfg st.queueHistory q ≥ cfg.scaleUpThreshold)
    (hd : ¬ max (min (effectiveQueue cfg st.queueHistory q) cfg.maxRunners) cfg.minRunners > c) :
    makeScalingDecision cfg st now q c = (baseDecision q c, st) := by
  simp [makeScalingDecision, baseDecision, hcool, hq, hd]

theorem makeScalingDecision_down_fire (cfg : ScalingConfig) (st : CtrlState)
    (now q c : Int) (hcool : inCooldownPeriod cfg st now = false)
    (hq : ¬ effectiveQueue cfg st.queueHistory q ≥ cfg.scaleUpThreshold)
    (hq2 : effectiveQueue cfg st.queueHistory q ≤ cfg.scaleDownThreshold)
    (hd : max (effectiveQueue cfg st.queueHistory q) cfg.minRunners < c)
    (hk : st.scaleDownCounter + 1 ≥ cfg.scaleDownHysteresis) :
    makeScalingDecision cfg st now q c =
      ({ baseDecision q c with
          action := .down
          desiredCount := max (effectiveQueue cfg st.queueHistory q) cfg.minRunners
          reason := "queue_below_threshold" },
       { st with scaleDownCounter := 0, scaleUpCounter := 0 }) := by
  simp [makeScalingDecision, baseDecision, hcool, hq, hq2, hd, hk]

theorem makeScalingDecision_down_pending (cfg : ScalingConfig) (st : CtrlState)
    (now q c : Int) (hcool : inCooldownPeriod cfg st now = false)
    (hq : ¬ effectiveQueue cfg st.queueHistory q ≥ cfg.scaleUpThreshold)
    (hq2 : effectiveQueue cfg st.queueHistory q ≤ cfg.scaleDownThreshold)
    (hd : max (effectiveQueue cfg st.queueHistory q) cfg.minRunners < c)
    (hk : ¬ st.scaleDownCounter + 1 ≥ cfg.scaleDownHysteresis) :
    makeScalingDecision cfg st now q c =
      ({ baseDecision q c with
          hysteresisHit := true
          reason := hysteresisReason (st.scaleDownCounter + 1) cfg.scaleDownHysteresis },
       { st with scaleDownCounter := st.scaleDownCounter + 1 }) := by
  simp [makeScalingDecision, baseDecision, hcool, hq, hq2, hd, hk]

theorem makeScalingDecision_down_nocand (cfg : ScalingConfig) (st : CtrlState)
    (now q c : Int) (hcool : inCooldownPeriod cfg st now = false)
    (hq : ¬ effectiveQueue cfg st.queueHistory q ≥ cfg.scaleUpThreshold)
    (hq2 : effectiveQueue cfg st.queueHistory q ≤ cfg.scaleDownThreshold)
    (hd : ¬ max (effectiveQueue cfg st.queueHistory q) cfg.minRunners < c) :
    makeScalingDecision cfg st now q c = (baseDecision q c, st) := by
  simp [makeScalingDecision, baseDecision, hcool, hq, hq2, hd]

theorem makeScalingDecision_normal (cfg : ScalingConfig) (st : CtrlState)
    (now q c : Int) (hcool : inCooldownPeriod cfg st now = false)
    (hq : ¬ effectiveQueue cfg st.queueHistory q ≥ cfg.scaleUpThreshold)
    (hq2 : ¬ effectiveQueue cfg st.queueHistory q ≤ cfg.scaleDownThreshold) :
    makeScalingDecision cfg st now q c =
      ({ baseDecision q c with reason := "queue_in_normal_range" },
       { st with scaleUpCounter := 0, scaleDownCounter := 0 }) := by
  simp [makeScalingDecision, baseDecision, hcool, hq, hq2]

/-! ### Concrete fixtures used by witnesses and counterexamples -/

/-- A controller state with zero counters, zero timestamps, empty
history. -/
def initialState : CtrlState := ⟨0, 0, 0, 0, []⟩

/-- An execution world with no runners, a disabled store, and an empty
call trace. -/
def emptyWorld : ExecWorld := ⟨[], ⟨⟨false, 1000⟩, [], Option.none⟩, []⟩

/-- A runner factory standing in for the provider's create results. -/
def stubRunner (i : Nat) : Runner :=
  ⟨"id-" ++ toString i, "zeno-runner", "prov-" ++ toString i, .provisioning, 0⟩

/-! ### C4: cooldown -/

/-- C4: after a scale-up or scale-down batch executes at time `t0`
(outside dry-run), any decision computed at a time `t` with
`t - t0 < CooldownPeriod` is `none` with reason `in_cooldown_period`,
and the controller state is left unchanged, so no scaling action is
emitted until `t0 + CooldownPeriod` even if the queue condition
persists. -/
theorem cooldown_blocks_decisions_after_batch
    (cfg : ScalingConfig) (st : CtrlState) (w : ExecWorld)
    (mk : Nat → Runner) (d : ScaleDecision) (t0 t q c : Int)
    (hact : d.action = .up ∨ d.action = .down)
    (ht : t - t0 < cfg.cooldownPeriod) :
    makeScalingDecision cfg (executeScaling cfg false st w t0 mk d).1 t q c =
      ({ baseDecision q c with reason := "in_cooldown_period" },
       (executeScaling cfg false st w t0 mk d).1) := by
  have hcool : inCooldownPeriod cfg (executeScaling cfg false st w t0 mk d).1 t = true := by
    rcases hact with h | h <;>
      simp [executeScaling, h, scaleUp, scaleDown, inCooldownPeriod, ht]
  exact makeScalingDecision_cooldown cfg _ t q c hcool

/-- A configuration with a positive cooldown period, used to witness
the cooldown theorem. -/
def cfgCooldown : ScalingConfig := ⟨1, 10, 5, 0, 1, 1, 100, false, true⟩

/-- An up decision as `makeScalingDecision` would emit it for queue 8,
current 2 under `cfgCooldown`. -/
def upDecision : ScaleDecision := ⟨.up, "queue_above_threshold", 2, 8, 8, false⟩

theorem cooldown_blocks_decisions_after_batch_witness :
    (50 - 0 < cfgCooldown.cooldownPeriod) ∧
    makeScalingDecision cfgCooldown
        (executeScaling cfgCooldown false initialState emptyWorld 0 stubRunner upDecision).1 50 8 2 =
      ({ baseDecision 8 2 with reason := "in_cooldown_period" },
       (executeScaling cfgCooldown false initialState emptyWorld 0 stubRunner upDecision).1) :=
  ⟨by decide,
   cooldown_blocks_decisions_after_batch cfgCooldown initialState emptyWorld
     stubRunner upDecision 0 50 8 2 (Or.inl rfl) (by decide)⟩

/-! ### C6: removing an absent runner -/

/-- C6 counterexample: on a provider inventory that does not contain
runner id `x`, `RemoveRunner` of both the Docker and the EC2 provider
returns the `runner not found` error rather than succeeding, for either
value of `graceful`. -/
theorem removeRunner_absent_counterexample :
    (dockerRemoveRunner [] "x" true).1 = Except.error "runner x not found" ∧
    (dockerRemoveRunner [] "x" false).1 = Except.error "runner x not found" ∧
    (ec2RemoveRunner [] "x" true).1 = Except.error "runner x not found" ∧
    (ec2RemoveRunner [] "x" false).1 = Except.error "runner x not found" ∧
    (dockerRemoveRunner [] "x" true).1 ≠ Except.ok () ∧
    (ec2RemoveRunner [] "x" true).1 ≠ Except.ok () := by
  refine ⟨rfl, rfl, rfl, rfl, ?_, ?_⟩ <;> intro h <;> exact Except.noConfusion h

/-- C6 amended: `RemoveRunner` on a runner id the provider does not
know returns the `runner not found` error (propagated from `GetRunner`)
and leaves the inventory unchanged, for both providers and either value
of `graceful`; removal of an absent runner is not an idempotent
success. -/
theorem removeRunner_absent_is_error (world : List Runner) (id : String)
    (g₁ g₂ : Bool) (habs : ∀ r ∈ world, ¬ r.id = id) :
    dockerRemoveRunner world id g₁ =
      (Except.error ("runner " ++ id ++ " not found"), world) ∧
    ec2RemoveRunner world id g₂ =
      (Except.error ("runner " ++ id ++ " not found"), world) := by
  have hfind : world.find? (fun r => r.id == id) = Option.none := by
    rw [List.find?_eq_none]
    intro r hr
    simpa using habs r hr
  constructor <;> simp [dockerRemoveRunner, ec2RemoveRunner, hfind]

/-- A sample idle runner. -/
def idleRunnerA : Runner := ⟨"a", "runner-a", "pa", .idle, 50⟩

theorem removeRunner_absent_is_error_witness :
    (∀ r ∈ [idleRunnerA], ¬ r.id = "x") ∧
    (dockerRemoveRunner [idleRunnerA] "x" true =
      (Except.error "runner x not found", [idleRunnerA]) ∧
     ec2RemoveRunner [idleRunnerA] "x" false =
      (Except.error "runner x not found", [idleRunnerA])) :=
  ⟨by decide, removeRunner_absent_is_error [idleRunnerA] "x" true false (by decide)⟩

/-! ### C7 / C8: retry policy and backoff -/

theorem shouldRetry_eq_true (e : FetchErr) : shouldRetry e = true := by
  cases e <;> rfl

theorem fetchRetryFrom_attempts (base maxB : ℚ) (rs : Nat → ℚ)
    (fetch : Nat → Except FetchErr Int)
    (hfail : ∀ i, ∃ e, fetch i = Except.error e) :
    ∀ (remaining attempt : Nat) (lastErr : Option FetchErr),
      (fetchRetryFrom base maxB rs fetch remaining attempt lastErr).attemptsMade =
        attempt + remaining := by
  intro remaining
  induction remaining with
  | zero => intro attempt lastErr; rfl
  | succ n ih =>
    intro attempt lastErr
    obtain ⟨e, he⟩ := hfail attempt
    simp [fetchRetryFrom, he, shouldRetry_eq_true, ih (attempt + 1) (some e)]
    omega

/-- C7 counterexample: a response body that fails to decode is retried
rather than returned immediately: with `MaxRetries = 3` and every
attempt ending in a decode failure, the client makes 4 fetch attempts
(not 1) and ends with the max-retries-exceeded error. -/
theorem malformed_retried_counterexample :
    (fetchQueuedJobsWithRetry 1 30 (fun _ => 0) 3
        (fun _ => Except.error .decodeFailure)).attemptsMade = 4 ∧
    (fetchQueuedJobsWithRetry 1 30 (fun _ => 0) 3
        (fun _ => Except.error .decodeFailure)).result =
      Except.error (.maxRetriesExceeded (some .decodeFailure)) ∧
    (4 : Nat) ≠ 1 :=
  ⟨rfl, rfl, by decide⟩

/-- C7 amended: `shouldRetry` returns `true` for every error kind —
including a malformed (decode-failure) response — so malformed
responses are retried exactly like network and rate-limit errors: a
persistently failing upstream receives `MaxRetries + 1` fetch attempts
before the client gives up. -/
theorem malformed_response_is_retried (base maxB : ℚ) (rs : Nat → ℚ)
    (maxRetries : Nat) (fetch : Nat → Except FetchErr Int)
    (hfail : ∀ i, ∃ e, fetch i = Except.error e) :
    shouldRetry .decodeFailure = true ∧
    (∀ e, shouldRetry e = true) ∧
    (fetchQueuedJobsWithRetry base maxB rs maxRetries fetch).attemptsMade =
      maxRetries + 1 := by
  refine ⟨rfl, shouldRetry_eq_true, ?_⟩
  have h := fetchRetryFrom_attempts base maxB rs fetch hfail (maxRetries + 1) 0 Option.none
  simpa [fetchQueuedJobsWithRetry] using h

theorem malformed_response_is_retried_witness :
    (∀ i : Nat, ∃ e, (fun _ : Nat => Except.error (ε := FetchErr) (α := Int) .decodeFailure) i
        = Except.error e) ∧
    (shouldRetry .decodeFailure = true ∧
     (∀ e, shouldRetry e = true) ∧
     (fetchQueuedJobsWithRetry 1 30 (fun _ => 0) 2
        (fun _ => Except.error .decodeFailure)).attemptsMade = 2 + 1) :=
  ⟨fun _ => ⟨.decodeFailure, rfl⟩,
   malformed_response_is_retried 1 30 (fun _ => 0) 2
     (fun _ => Except.error .decodeFailure) (fun _ => ⟨.decodeFailure, rfl⟩)⟩

/-- C8: with `MaxRetries = 3` a persistently failing upstream receives
exactly 4 fetch attempts; and the backoff before retry attempt `n ≥ 1`
equals `min(base·2^(n-1), maxB)` scaled by the uniform jitter factor
`1 + (2r-1)/4 ∈ [0.75, 1.25]`, hence lies in
`[0.75·min(base·2^(n-1), maxB), 1.25·min(base·2^(n-1), maxB)]`
(the `float64` arithmetic is modelled exactly over `ℚ`). -/
theorem retry_attempt_count_and_backoff_bounds
    (base maxB : ℚ) (rs : Nat → ℚ) (fetch : Nat → Except FetchErr Int)
    (hfail : ∀ i, ∃ e, fetch i = Except.error e)
    (hbase : 0 ≤ base) (hmax : 0 ≤ maxB)
    (n : Nat) (hn : 1 ≤ n) (r : ℚ) (hr0 : 0 ≤ r) (hr1 : r ≤ 1) :
    (fetchQueuedJobsWithRetry base maxB rs 3 fetch).attemptsMade = 4 ∧
    calculateBackoff base maxB n r =
      min (base * 2 ^ (n - 1)) maxB * (1 + (2 * r - 1) / 4) ∧
    3 / 4 * min (base * 2 ^ (n - 1)) maxB ≤ calculateBackoff base maxB n r ∧
    calculateBackoff base maxB n r ≤ 5 / 4 * min (base * 2 ^ (n - 1)) maxB := by
  have hatt := fetchRetryFrom_attempts base maxB rs fetch hfail 4 0 Option.none
  have hm : (0 : ℚ) ≤ min (base * 2 ^ (n - 1)) maxB :=
    le_min (mul_nonneg hbase (pow_nonneg (by norm_num) _)) hmax
  have hcap : calculateBackoff base maxB n r =
      min (base * 2 ^ (n - 1)) maxB * (1 + (2 * r - 1) / 4) := by
    by_cases h : base * 2 ^ (n - 1) > maxB
    · simp only [calculateBackoff, if_pos h, min_eq_right (le_of_lt h)]
      ring
    · simp only [calculateBackoff, if_neg h, min_eq_left (not_lt.mp h)]
      ring
  refine ⟨by simpa [fetchQueuedJobsWithRetry] using hatt, hcap, ?_, ?_⟩
  · rw [hcap]
    calc 3 / 4 * min (base * 2 ^ (n - 1)) maxB
        = min (base * 2 ^ (n - 1)) maxB * (3 / 4) := by ring
      _ ≤ min (base * 2 ^ (n - 1)) maxB * (1 + (2 * r - 1) / 4) := by
          apply mul_le_mul_of_nonneg_left _ hm
          linarith
  · rw [hcap]
    calc min (base * 2 ^ (n - 1)) maxB * (1 + (2 * r - 1) / 4)
        ≤ min (base * 2 ^ (n - 1)) maxB * (5 / 4) := by
          apply mul_le_mul_of_nonneg_left _ hm
          linarith
      _ = 5 / 4 * min (base * 2 ^ (n - 1)) maxB := by ring

theorem retry_attempt_count_and_backoff_bounds_witness :
    ((0 : ℚ) ≤ 1 ∧ (0 : ℚ) ≤ 30 ∧ (1 : Nat) ≤ 2 ∧ (0 : ℚ) ≤ 1 / 2 ∧ (1 / 2 : ℚ) ≤ 1) ∧
    ((fetchQueuedJobsWithRetry 1 30 (fun _ => 0) 3
        (fun _ => Except.error (ε := FetchErr) (α := Int) .network)).attemptsMade = 4 ∧
     calculateBackoff 1 30 2 (1 / 2) =
       min ((1 : ℚ) * 2 ^ (2 - 1)) 30 * (1 + (2 * (1 / 2) - 1) / 4) ∧
     3 / 4 * min ((1 : ℚ) * 2 ^ (2 - 1)) 30 ≤ calculateBackoff 1 30 2 (1 / 2) ∧
     calculateBackoff 1 30 2 (1 / 2) ≤ 5 / 4 * min ((1 : ℚ) * 2 ^ (2 - 1)) 30) :=
  ⟨⟨by norm_num, by norm_num, by norm_num, by norm_num, by norm_num⟩,
   retry_attempt_count_and_backoff_bounds 1 30 (fun _ => 0)
     (fun _ => Except.error .network) (fun _ => ⟨.network, rfl⟩)
     (by norm_num) (by norm_num) 2 (by norm_num) (1 / 2)
     (by norm_num) (by norm_num)⟩

/-! ### C9: event log ring -/

theorem recordScaleEvent_enabled (M : Nat) (E : List ScaleEvent)
    (f : Option (List ScaleEvent)) (e : ScaleEvent) :
    recordScaleEvent ⟨⟨true, (M : Int)⟩, E, f⟩ e =
      ⟨⟨true, (M : Int)⟩, (E ++ [e]).drop (E.length + 1 - M),
        some ((E ++ [e]).drop (E.length + 1 - M))⟩ := by
  have hlen : ((E ++ [e]).length : Int) = (E.length : Int) + 1 := by
    simp
  by_cases h : ((E ++ [e]).length : Int) > (M : Int)
  · have htn : (((E ++ [e]).length : Int) - (M : Int)).toNat = E.length + 1 - M := by
      omega
    simp only [recordScaleEvent, Bool.not_true, Bool.false_eq_true, if_false, if_pos h, htn]
  · have hz : E.length + 1 - M = 0 := by omega
    simp only [recordScaleEvent, Bool.not_true, Bool.false_eq_true, if_false, if_neg h, hz,
      List.drop_zero]

theorem recordAll_enabled_events (M : Nat) :
    ∀ (es E : List ScaleEvent) (f : Option (List ScaleEvent)), E.length ≤ M →
      (recordAll ⟨⟨true, (M : Int)⟩, E, f⟩ es).events =
        (E ++ es).drop (E.length + es.length - M) := by
  intro es
  induction es with
  | nil =>
    intro E f hE
    simp [recordAll, Nat.sub_eq_zero_of_le hE]
  | cons e rest ih =>
    intro E f hE
    rw [recordAll, List.foldl_cons, recordScaleEvent_enabled]
    have hE' : ((E ++ [e]).drop (E.length + 1 - M)).length ≤ M := by
      simp [List.length_drop]
      omega
    rw [show (List.foldl recordScaleEvent
          ⟨⟨true, (M : Int)⟩, (E ++ [e]).drop (E.length + 1 - M),
            some ((E ++ [e]).drop (E.length + 1 - M))⟩ rest) =
        recordAll ⟨⟨true, (M : Int)⟩, (E ++ [e]).drop (E.length + 1 - M),
            some ((E ++ [e]).drop (E.length + 1 - M))⟩ rest from rfl,
      ih _ _ hE']
    rw [← List.drop_append_of_le_length (by simp), List.drop_drop,
      List.length_drop, List.append_assoc, List.singleton_append]
    congr 1
    simp
    omega

theorem recordAll_enabled_file (M : Nat) :
    ∀ (es : List ScaleEvent), es ≠ [] →
      ∀ (E : List ScaleEvent) (f : Option (List ScaleEvent)),
      (recordAll ⟨⟨true, (M : Int)⟩, E, f⟩ es).file =
        some ((recordAll ⟨⟨true, (M : Int)⟩, E, f⟩ es).events) := by
  intro es
  induction es with
  | nil => intro h; exact absurd rfl h
  | cons e rest ih =>
    intro _ E f
    rw [recordAll, List.foldl_cons, recordScaleEvent_enabled]
    by_cases hr : rest = []
    · subst hr
      rfl
    · exact ih hr _ _

/-- C9 counterexample: with the store disabled (the configuration
default), `RecordScaleEvent` is a no-op, so appending `MaxEvents + k`
events retains nothing — not the last `MaxEvents` events. Here
`MaxEvents = 2` and three events are appended. -/
theorem eventLog_disabled_retains_nothing :
    (recordAll ⟨⟨false, 2⟩, [], Option.none⟩
      [⟨1, "scale_up", "r", 1, 0, 1⟩, ⟨2, "scale_up", "r", 1, 1, 2⟩,
       ⟨3, "scale_up", "r", 1, 2, 3⟩]).events = [] ∧
    ([] : List ScaleEvent) ≠
      [⟨2, "scale_up", "r", 1, 1, 2⟩, ⟨3, "scale_up", "r", 1, 2, 3⟩] :=
  ⟨rfl, by decide⟩

/-- C9 amended: when the store is enabled, appending `MaxEvents + k`
events (k ≥ 1) to an empty log retains exactly the last `MaxEvents`
events in append order, and the entire log is rewritten to the
persistence file on each append; when the store is disabled (the
default configuration), `RecordScaleEvent` is a no-op and nothing is
retained, in memory or on disk. -/
theorem eventLog_ring_when_enabled (M k : Nat) (hk : 1 ≤ k)
    (es : List ScaleEvent) (hlen : es.length = M + k) :
    (recordAll ⟨⟨true, (M : Int)⟩, [], Option.none⟩ es).events = es.drop k ∧
    (recordAll ⟨⟨true, (M : Int)⟩, [], Option.none⟩ es).events.length = M ∧
    (recordAll ⟨⟨true, (M : Int)⟩, [], Option.none⟩ es).file = some (es.drop k) ∧
    (∀ (s : Store) (e : ScaleEvent), s.config.enabled = false →
      recordScaleEvent s e = s) := by
  have hne : es ≠ [] := by
    intro h
    rw [h] at hlen
    simp at hlen
    omega
  have hev := recordAll_enabled_events M es [] Option.none (by simp)
  simp only [List.nil_append, List.length_nil, Nat.zero_add, hlen] at hev
  have hidx : M + k - M = k := by omega
  rw [hidx] at hev
  refine ⟨hev, ?_, ?_, ?_⟩
  · rw [hev, List.length_drop, hlen]
    omega
  · rw [recordAll_enabled_file M es hne [] Option.none, hev]
  · intro s e hdis
    simp [recordScaleEvent, hdis]

theorem eventLog_ring_when_enabled_witness :
    ((1 : Nat) ≤ 1 ∧
      ([⟨1, "scale_up", "r", 1, 0, 1⟩, ⟨2, "scale_up", "r", 1, 1, 2⟩,
        ⟨3, "scale_up", "r", 1, 2, 3⟩] : List ScaleEvent).length = 2 + 1) ∧
    ((recordAll ⟨⟨true, ((2 : Nat) : Int)⟩, [], Option.none⟩
        [⟨1, "scale_up", "r", 1, 0, 1⟩, ⟨2, "scale_up", "r", 1, 1, 2⟩,
         ⟨3, "scale_up", "r", 1, 2, 3⟩]).events =
      ([⟨1, "scale_up", "r", 1, 0, 1⟩, ⟨2, "scale_up", "r", 1, 1, 2⟩,
        ⟨3, "scale_up", "r", 1, 2, 3⟩] : List ScaleEvent).drop 1 ∧
     (recordAll ⟨⟨true, ((2 : Nat) : Int)⟩, [], Option.none⟩
        [⟨1, "scale_up", "r", 1, 0, 1⟩, ⟨2, "scale_up", "r", 1, 1, 2⟩,
         ⟨3, "scale_up", "r", 1, 2, 3⟩]).events.length = 2 ∧
     (recordAll ⟨⟨true, ((2 : Nat) : Int)⟩, [], Option.none⟩
        [⟨1, "scale_up", "r", 1, 0, 1⟩, ⟨2, "scale_up", "r", 1, 1, 2⟩,
         ⟨3, "scale_up", "r", 1, 2, 3⟩]).file =
      some (([⟨1, "scale_up", "r", 1, 0, 1⟩, ⟨2, "scale_up", "r", 1, 1, 2⟩,
        ⟨3, "scale_up", "r", 1, 2, 3⟩] : List ScaleEvent).drop 1) ∧
     (∀ (s : Store) (e : ScaleEvent), s.config.enabled = false →
       recordScaleEvent s e = s)) :=
  ⟨⟨by decide, by decide⟩,
   eventLog_ring_when_enabled 2 1 (by decide) _ (by decide)⟩

/-! ### C1: desired-count bounds -/

/-- A valid configuration (`MaxRunners ≥ MinRunners ≥ 0`,
`Q_up > Q_down ≥ 0`) under which the scale-down desired count escapes
the `MaxRunners` bound. -/
def cfgHighBand : ScalingConfig := ⟨1, 2, 51, 50, 1, 1, 0, false, true⟩

/-- C1 counterexample: under the valid configuration `cfgHighBand`
(MinRunners = 1 ≤ MaxRunners = 2, Q_up = 51 > Q_down = 50 ≥ 0), a tick
with queue 30 and current count 40 takes the scale-down branch, whose
desired count `max(q, MinRunners) = 30` is not clamped by `MaxRunners`:
the emitted `down` decision has DesiredCount 30 > MaxRunners = 2. -/
theorem desired_count_bounds_counterexample :
    (cfgHighBand.minRunners ≤ cfgHighBand.maxRunners ∧
     0 ≤ cfgHighBand.minRunners ∧
     cfgHighBand.scaleDownThreshold < cfgHighBand.scaleUpThreshold ∧
     0 ≤ cfgHighBand.scaleDownThreshold) ∧
    (makeScalingDecision cfgHighBand initialState 0 30 40).1.action = .down ∧
    (makeScalingDecision cfgHighBand initialState 0 30 40).1.desiredCount = 30 ∧
    ¬ (makeScalingDecision cfgHighBand initialState 0 30 40).1.desiredCount ≤
        cfgHighBand.maxRunners := by
  decide

/-- C1 amended: for `MinRunners ≤ MaxRunners` the bound
`MinRunners ≤ DesiredCount ≤ MaxRunners` holds exactly for `up`
decisions; a `down` decision only satisfies the lower bound
`DesiredCount ≥ MinRunners` (its desired count `max(q, MinRunners)` is
not clamped above), and a `none` decision carries
`DesiredCount = CurrentCount`, which may lie outside both bounds. -/
theorem desired_count_bounds (cfg : ScalingConfig) (st : CtrlState)
    (now q c : Int) (hmm : cfg.minRunners ≤ cfg.maxRunners) :
    ((makeScalingDecision cfg st now q c).1.action = .up →
      cfg.minRunners ≤ (makeScalingDecision cfg st now q c).1.desiredCount ∧
      (makeScalingDecision cfg st now q c).1.desiredCount ≤ cfg.maxRunners) ∧
    ((makeScalingDecision cfg st now q c).1.action = .down →
      cfg.minRunners ≤ (makeScalingDecision cfg st now q c).1.desiredCount) ∧
    ((makeScalingDecision cfg st now q c).1.action = .none →
      (makeScalingDecision cfg st now q c).1.desiredCount = c) := by
  by_cases hcool : inCooldownPeriod cfg st now = true
  · rw [makeScalingDecision_cooldown cfg st now q c hcool]
    exact ⟨fun h => ScaleAction.noConfusion h, fun h => ScaleAction.noConfusion h,
      fun _ => rfl⟩
  · have hc : inCooldownPeriod cfg st now = false := by
      simpa using hcool
    by_cases hq : effectiveQueue cfg st.queueHistory q ≥ cfg.scaleUpThreshold
    · by_cases hd : max (min (effectiveQueue cfg st.queueHistory q) cfg.maxRunners)
          cfg.minRunners > c
      · by_cases hk : st.scaleUpCounter + 1 ≥ cfg.scaleUpHysteresis
        · rw [makeScalingDecision_up_fire cfg st now q c hc hq hd hk]
          exact ⟨fun _ => ⟨le_max_right _ _, max_le (min_le_right _ _) hmm⟩,
            fun h => ScaleAction.noConfusion h, fun h => ScaleAction.noConfusion h⟩
        · rw [makeScalingDecision_up_pending cfg st now q c hc hq hd hk]
          exact ⟨fun h => ScaleAction.noConfusion h, fun h => ScaleAction.noConfusion h,
            fun _ => rfl⟩
      · rw [makeScalingDecision_up_nocand cfg st now q c hc hq hd]
        exact ⟨fun h => ScaleAction.noConfusion h, fun h => ScaleAction.noConfusion h,
          fun _ => rfl⟩
    · by_cases hq2 : effectiveQueue cfg st.queueHistory q ≤ cfg.scaleDownThreshold
      · by_cases hd2 : max (effectiveQueue cfg st.queueHistory q) cfg.minRunners < c
        · by_cases hk2 : st.scaleDownCounter + 1 ≥ cfg.scaleDownHysteresis
          · rw [makeScalingDecision_down_fire cfg st now q c hc hq hq2 hd2 hk2]
            exact ⟨fun h => ScaleAction.noConfusion h, fun _ => le_max_right _ _,
              fun h => ScaleAction.noConfusion h⟩
          · rw [makeScalingDecision_down_pending cfg st now q c hc hq hq2 hd2 hk2]
            exact ⟨fun h => ScaleAction.noConfusion h, fun h => ScaleAction.noConfusion h,
              fun _ => rfl⟩
        · rw [makeScalingDecision_down_nocand cfg st now q c hc hq hq2 hd2]
          exact ⟨fun h => ScaleAction.noConfusion h, fun h => ScaleAction.noConfusion h,
            fun _ => rfl⟩
      · rw [makeScalingDecision_normal cfg st now q c hc hq hq2]
        exact ⟨fun h => ScaleAction.noConfusion h, fun h => ScaleAction.noConfusion h,
          fun _ => rfl⟩

theorem desired_count_bounds_witness :
    (cfgHighBand.minRunners ≤ cfgHighBand.maxRunners) ∧
    (((makeScalingDecision cfgHighBand initialState 0 8 2).1.action = .up →
      cfgHighBand.minRunners ≤
        (makeScalingDecision cfgHighBand initialState 0 8 2).1.desiredCount ∧
      (makeScalingDecision cfgHighBand initialState 0 8 2).1.desiredCount ≤
        cfgHighBand.maxRunners) ∧
    ((makeScalingDecision cfgHighBand initialState 0 8 2).1.action = .down →
      cfgHighBand.minRunners ≤
        (makeScalingDecision cfgHighBand initialState 0 8 2).1.desiredCount) ∧
    ((makeScalingDecision cfgHighBand initialState 0 8 2).1.action = .none →
      (makeScalingDecision cfgHighBand initialState 0 8 2).1.desiredCount = 2)) :=
  ⟨by decide, desired_count_bounds cfgHighBand initialState 0 8 2 (by decide)⟩

/-! ### C3: hysteresis counter invariant -/

/-- A valid configuration with both hysteresis thresholds set to 2,
under which both counters can become non-zero at once. -/
def cfgHyst2 : ScalingConfig := ⟨1, 10, 5, 0, 2, 2, 0, false, true⟩

/-- C3 counterexample: under `cfgHyst2` a down-candidate tick (queue 0,
current 5) leaves `down_streak = 1`; the next up-candidate tick (queue
7, current 2) increments `up_streak` to 1 but does not reset
`down_streak`, so after that tick both counters are non-zero,
contradicting the claimed at-most-one-non-zero invariant. -/
theorem hysteresis_both_counters_nonzero_counterexample :
    (makeScalingDecision cfgHyst2
        (makeScalingDecision cfgHyst2 initialState 0 0 5).2 0 7 2).2.scaleUpCounter = 1 ∧
    (makeScalingDecision cfgHyst2
        (makeScalingDecision cfgHyst2 initialState 0 0 5).2 0 7 2).2.scaleDownCounter = 1 := by
  decide

/-- C3 amended: a non-firing up-candidate tick increments `up_streak`
and leaves `down_streak` unchanged (and symmetrically for down), so
both counters can be non-zero simultaneously; the two counters are
cleared together exactly when a scaling action fires or when a
non-cooldown tick's effective queue depth lies strictly between
`Q_down` and `Q_up`. -/
theorem hysteresis_counter_update_rules (cfg : ScalingConfig)
    (st : CtrlState) (now q c : Int)
    (hcool : inCooldownPeriod cfg st now = false)
    (hv : cfg.scaleDownThreshold < cfg.scaleUpThreshold) :
    ((cfg.scaleDownThreshold < effectiveQueue cfg st.queueHistory q ∧
      effectiveQueue cfg st.queueHistory q < cfg.scaleUpThreshold) →
      (makeScalingDecision cfg st now q c).2.scaleUpCounter = 0 ∧
      (makeScalingDecision cfg st now q c).2.scaleDownCounter = 0) ∧
    (effectiveQueue cfg st.queueHistory q ≥ cfg.scaleUpThreshold →
      max (min (effectiveQueue cfg st.queueHistory q) cfg.maxRunners) cfg.minRunners > c →
      st.scaleUpCounter + 1 < cfg.scaleUpHysteresis →
      (makeScalingDecision cfg st now q c).2.scaleUpCounter = st.scaleUpCounter + 1 ∧
      (makeScalingDecision cfg st now q c).2.scaleDownCounter = st.scaleDownCounter) ∧
    (effectiveQueue cfg st.queueHistory q ≤ cfg.scaleDownThreshold →
      max (effectiveQueue cfg st.queueHistory q) cfg.minRunners < c →
      st.scaleDownCounter + 1 < cfg.scaleDownHysteresis →
      (makeScalingDecision cfg st now q c).2.scaleDownCounter = st.scaleDownCounter + 1 ∧
      (makeScalingDecision cfg st now q c).2.scaleUpCounter = st.scaleUpCounter) ∧
    ((makeScalingDecision cfg st now q c).1.action ≠ .none →
      (makeScalingDecision cfg st now q c).2.scaleUpCounter = 0 ∧
      (makeScalingDecision cfg st now q c).2.scaleDownCounter = 0) := by
  by_cases hq : effectiveQueue cfg st.queueHistory q ≥ cfg.scaleUpThreshold
  · by_cases hd : max (min (effectiveQueue cfg st.queueHistory q) cfg.maxRunners)
        cfg.minRunners > c
    · by_cases hk : st.scaleUpCounter + 1 ≥ cfg.scaleUpHysteresis
      · rw [makeScalingDecision_up_fire cfg st now q c hcool hq hd hk]
        exact ⟨fun _ => ⟨rfl, rfl⟩, fun _ _ hlt => absurd hk (by omega),
          fun h2 _ _ => absurd h2 (by omega), fun _ => ⟨rfl, rfl⟩⟩
      · rw [makeScalingDecision_up_pending cfg st now q c hcool hq hd hk]
        exact ⟨fun hb => absurd hq (by omega), fun _ _ _ => ⟨rfl, rfl⟩,
          fun h2 _ _ => absurd h2 (by omega), fun h => absurd rfl h⟩
    · rw [makeScalingDecision_up_nocand cfg st now q c hcool hq hd]
      exact ⟨fun hb => absurd hq (by omega), fun _ hclamp _ => absurd hclamp hd,
        fun h2 _ _ => absurd h2 (by omega), fun h => absurd rfl h⟩
  · by_cases hq2 : effectiveQueue cfg st.queueHistory q ≤ cfg.scaleDownThreshold
    · by_cases hd2 : max (effectiveQueue cfg st.queueHistory q) cfg.minRunners < c
      · by_cases hk2 : st.scaleDownCounter + 1 ≥ cfg.scaleDownHysteresis
        · rw [makeScalingDecision_down_fire cfg st now q c hcool hq hq2 hd2 hk2]
          exact ⟨fun hb => absurd hq2 (by omega), fun hu _ _ => absurd hu hq,
            fun _ _ hlt => absurd hk2 (by omega), fun _ => ⟨rfl, rfl⟩⟩
        · rw [makeScalingDecision_down_pending cfg st now q c hcool hq hq2 hd2 hk2]
          exact ⟨fun hb => absurd hq2 (by omega), fun hu _ _ => absurd hu hq,
            fun _ _ _ => ⟨rfl, rfl⟩, fun h => absurd rfl h⟩
      · rw [makeScalingDecision_down_nocand cfg st now q c hcool hq hq2 hd2]
        exact ⟨fun hb => absurd hq2 (by omega), fun hu _ _ => absurd hu hq,
          fun _ hlow _ => absurd hlow hd2, fun h => absurd rfl h⟩
    · rw [makeScalingDecision_normal cfg st now q c hcool hq hq2]
      exact ⟨fun _ => ⟨rfl, rfl⟩, fun hu _ _ => absurd hu hq,
        fun h2 _ _ => absurd h2 hq2, fun h => absurd rfl h⟩

theorem hysteresis_counter_update_rules_witness :
    (inCooldownPeriod cfgHyst2 initialState 0 = false ∧
     cfgHyst2.scaleDownThreshold < cfgHyst2.scaleUpThreshold) ∧
    (((cfgHyst2.scaleDownThreshold < effectiveQueue cfgHyst2 initialState.queueHistory 7 ∧
       effectiveQueue cfgHyst2 initialState.queueHistory 7 < cfgHyst2.scaleUpThreshold) →
       (makeScalingDecision cfgHyst2 initialState 0 7 2).2.scaleUpCounter = 0 ∧
       (makeScalingDecision cfgHyst2 initialState 0 7 2).2.scaleDownCounter = 0) ∧
     (effectiveQueue cfgHyst2 initialState.queueHistory 7 ≥ cfgHyst2.scaleUpThreshold →
       max (min (effectiveQueue cfgHyst2 initialState.queueHistory 7) cfgHyst2.maxRunners)
         cfgHyst2.minRunners > 2 →
       initialState.scaleUpCounter + 1 < cfgHyst2.scaleUpHysteresis →
       (makeScalingDecision cfgHyst2 initialState 0 7 2).2.scaleUpCounter =
         initialState.scaleUpCounter + 1 ∧
       (makeScalingDecision cfgHyst2 initialState 0 7 2).2.scaleDownCounter =
         initialState.scaleDownCounter) ∧
     (effectiveQueue cfgHyst2 initialState.queueHistory 7 ≤ cfgHyst2.scaleDownThreshold →
       max (effectiveQueue cfgHyst2 initialState.queueHistory 7) cfgHyst2.minRunners < 2 →
       initialState.scaleDownCounter + 1 < cfgHyst2.scaleDownHysteresis →
       (makeScalingDecision cfgHyst2 initialState 0 7 2).2.scaleDownCounter =
         initialState.scaleDownCounter + 1 ∧
       (makeScalingDecision cfgHyst2 initialState 0 7 2).2.scaleUpCounter =
         initialState.scaleUpCounter) ∧
     ((makeScalingDecision cfgHyst2 initialState 0 7 2).1.action ≠ .none →
       (makeScalingDecision cfgHyst2 initialState 0 7 2).2.scaleUpCounter = 0 ∧
       (makeScalingDecision cfgHyst2 initialState 0 7 2).2.scaleDownCounter = 0)) :=
  ⟨⟨by decide, by decide⟩,
   hysteresis_counter_update_rules cfgHyst2 initialState 0 7 2 (by decide) (by decide)⟩

/-! ### C5: scale-down selection -/

/-- A newer runner in `running` status that is listed first by the
provider. -/
def newRunning : Runner := ⟨"b", "runner-b", "pb", .running, 100⟩

/-- An older `idle` runner listed second by the provider. -/
def oldIdle : Runner := ⟨"a", "runner-a", "pa", .idle, 50⟩

/-- A concrete down decision removing one runner out of two. -/
def downByOne : ScaleDecision := ⟨.down, "queue_below_threshold", 2, 1, 0, false⟩

/-- C5 counterexample: `scaleDown` walks the provider list in order and
removes the first idle-or-running runner it meets; on the inventory
`[newRunning, oldIdle]` a scale-down of 1 removes `newRunning` — a
`running` runner with `CreatedAt = 100` — even though the strictly
older `idle` runner `oldIdle` (`CreatedAt = 50`) is present, so the
removed runner is neither the oldest eligible one nor idle-preferred. -/
theorem scaleDown_not_oldest_idle_counterexample :
    (scaleDownLoop true downByOne 0 [newRunning, oldIdle] 1 0).2.2 = [newRunning] ∧
    newRunning.status = .running ∧
    oldIdle.status = .idle ∧
    oldIdle.createdAt < newRunning.createdAt ∧
    oldIdle ∉ (scaleDownLoop true downByOne 0 [newRunning, oldIdle] 1 0).2.2 := by
  decide

theorem scaleDownLoop_removed_eq_take_filter (g : Bool) (d : ScaleDecision)
    (now : Int) :
    ∀ (rs : List Runner) (count removed : Int),
      (scaleDownLoop g d now rs count removed).2.2 =
        (rs.filter eligibleForRemoval).take (count - removed).toNat := by
  intro rs
  induction rs with
  | nil => intro count removed; simp [scaleDownLoop]
  | cons r rest ih =>
    intro count removed
    by_cases hstop : removed ≥ count
    · have h0 : (count - removed).toNat = 0 := by omega
      simp [scaleDownLoop, hstop, h0]
    · by_cases hel : eligibleForRemoval r
      · have hsucc : (count - removed).toNat = (count - (removed + 1)).toNat + 1 := by
          omega
        simp [scaleDownLoop, hstop, hel, ih, hsucc]
      · simp [scaleDownLoop, hstop, hel, ih]

theorem eligible_status (r : Runner) (h : eligibleForRemoval r = true) :
    r.status = .idle ∨ r.status = .running := by
  simpa [eligibleForRemoval] using h

/-- C5 amended: in a scale-down of `n = CurrentCount - DesiredCount`,
the runners removed are exactly the first `n` runners whose status is
`idle` or `running` in the provider's list order — no sorting by
`CreatedAt`, no strict preference of `idle` over `running`, and no id
tie-break is applied; runners in `terminating`, `terminated`, `failed`
(or any other) status are never selected. -/
theorem scaleDown_removes_first_eligible_in_list_order
    (cfg : ScalingConfig) (w : ExecWorld) (now : Int) (d : ScaleDecision)
    (hn : 0 ≤ d.currentCount - d.desiredCount) :
    (scaleDownLoop cfg.gracefulTermination d now w.runners
        (d.currentCount - d.desiredCount) 0).2.2 =
      (w.runners.filter eligibleForRemoval).take
        (d.currentCount - d.desiredCount).toNat ∧
    (∀ r ∈ (scaleDownLoop cfg.gracefulTermination d now w.runners
        (d.currentCount - d.desiredCount) 0).2.2,
      (r.status = .idle ∨ r.status = .running) ∧
      r.status ≠ .terminating ∧ r.status ≠ .terminated ∧ r.status ≠ .failed) := by
  have hsel := scaleDownLoop_removed_eq_take_filter cfg.gracefulTermination d now
    w.runners (d.currentCount - d.desiredCount) 0
  rw [Int.sub_zero] at hsel
  refine ⟨hsel, ?_⟩
  intro r hr
  rw [hsel] at hr
  have hmem : r ∈ w.runners.filter eligibleForRemoval := List.mem_of_mem_take hr
  have hel : eligibleForRemoval r = true := (List.mem_filter.mp hmem).2
  have hst := eligible_status r hel
  refine ⟨hst, ?_, ?_, ?_⟩ <;> rcases hst with h | h <;> simp [h]

theorem scaleDown_removes_first_eligible_in_list_order_witness :
    (0 ≤ downByOne.currentCount - downByOne.desiredCount) ∧
    ((scaleDownLoop cfgHighBand.gracefulTermination downByOne 0
        [newRunning, oldIdle] (downByOne.currentCount - downByOne.desiredCount) 0).2.2 =
      ([newRunning, oldIdle].filter eligibleForRemoval).take
        (downByOne.currentCount - downByOne.desiredCount).toNat ∧
     (∀ r ∈ (scaleDownLoop cfgHighBand.gracefulTermination downByOne 0
        [newRunning, oldIdle] (downByOne.currentCount - downByOne.desiredCount) 0).2.2,
       (r.status = .idle ∨ r.status = .running) ∧
       r.status ≠ .terminating ∧ r.status ≠ .terminated ∧ r.status ≠ .failed)) :=
  ⟨by decide,
   scaleDown_removes_first_eligible_in_list_order cfgHighBand
     ⟨[newRunning, oldIdle], ⟨⟨false, 1000⟩, [], Option.none⟩, []⟩ 0 downByOne
     (by decide)⟩

/-! ### C10: dry-run frame -/

theorem fired_resets_counters (cfg : ScalingConfig) (st : CtrlState)
    (now q c : Int) :
    (makeScalingDecision cfg st now q c).1.action ≠ .none →
    (makeScalingDecision cfg st now q c).2.scaleUpCounter = 0 ∧
    (makeScalingDecision cfg st now q c).2.scaleDownCounter = 0 := by
  by_cases hcool : inCooldownPeriod cfg st now = true
  · rw [makeScalingDecision_cooldown cfg st now q c hcool]
    exact fun h => absurd rfl h
  · have hc : inCooldownPeriod cfg st now = false := by simpa using hcool
    by_cases hq : effectiveQueue cfg st.queueHistory q ≥ cfg.scaleUpThreshold
    · by_cases hd : max (min (effectiveQueue cfg st.queueHistory q) cfg.maxRunners)
          cfg.minRunners > c
      · by_cases hk : st.scaleUpCounter + 1 ≥ cfg.scaleUpHysteresis
        · rw [makeScalingDecision_up_fire cfg st now q c hc hq hd hk]
          exact fun _ => ⟨rfl, rfl⟩
        · rw [makeScalingDecision_up_pending cfg st now q c hc hq hd hk]
          exact fun h => absurd rfl h
      · rw [makeScalingDecision_up_nocand cfg st now q c hc hq hd]
        exact fun h => absurd rfl h
    · by_cases hq2 : effectiveQueue cfg st.queueHistory q ≤ cfg.scaleDownThreshold
      · by_cases hd2 : max (effectiveQueue cfg st.queueHistory q) cfg.minRunners < c
        · by_cases hk2 : st.scaleDownCounter + 1 ≥ cfg.scaleDownHysteresis
          · rw [makeScalingDecision_down_fire cfg st now q c hc hq hq2 hd2 hk2]
            exact fun _ => ⟨rfl, rfl⟩
          · rw [makeScalingDecision_down_pending cfg st now q c hc hq hq2 hd2 hk2]
            exact fun h => absurd rfl h
        · rw [makeScalingDecision_down_nocand cfg st now q c hc hq hq2 hd2]
          exact fun h => absurd rfl h
      · rw [makeScalingDecision_normal cfg st now q c hc hq hq2]
        exact fun h => absurd rfl h

/-- C10: in dry-run mode a tick whose decision fires (`up` or `down`)
still resets both hysteresis counters inside the decision step, while
`executeScaling` returns before any provider call: the controller state
(including `last_scale_up_time` and `last_scale_down_time`) and the
world (runner inventory, event store, provider-call trace) are returned
unchanged for every decision, so the cooldown gate is never engaged by
a dry-run tick. -/
theorem dryRun_executes_nothing (cfg : ScalingConfig) (st : CtrlState)
    (w : ExecWorld) (now q c : Int) (mk : Nat → Runner) (d : ScaleDecision)
    (dry : Bool) (hdry : dry = true) :
    ((makeScalingDecision cfg st now q c).1.action ≠ .none →
      (makeScalingDecision cfg st now q c).2.scaleUpCounter = 0 ∧
      (makeScalingDecision cfg st now q c).2.scaleDownCounter = 0) ∧
    executeScaling cfg dry st w now mk d = (st, w) := by
  subst hdry
  refine ⟨fired_resets_counters cfg st now q c, ?_⟩
  by_cases han : d.action = .none <;> simp [executeScaling, han]

theorem dryRun_executes_nothing_witness :
    (true = true) ∧
    (((makeScalingDecision cfgHyst2 initialState 0 8 2).1.action ≠ .none →
      (makeScalingDecision cfgHyst2 initialState 0 8 2).2.scaleUpCounter = 0 ∧
      (makeScalingDecision cfgHyst2 initialState 0 8 2).2.scaleDownCounter = 0) ∧
     executeScaling cfgHyst2 true initialState emptyWorld 0 stubRunner upDecision =
       (initialState, emptyWorld)) :=
  ⟨rfl, dryRun_executes_nothing cfgHyst2 initialState emptyWorld 0 8 2 stubRunner
    upDecision true rfl⟩

/-! ### C2: hysteresis gate over consecutive ticks -/

/-- The controller state after `i` consecutive decision ticks, where
tick `i` consumes queue depth `(inputs i).1` and current count
`(inputs i).2` (the decision step is the only state writer between
ticks). -/
def tickStates (cfg : ScalingConfig) (now : Int) (inputs : Nat → Int × Int)
    (st : CtrlState) : Nat → CtrlState
  | 0 => st
  | i + 1 =>
    (makeScalingDecision cfg (tickStates cfg now inputs st i) now
      (inputs i).1 (inputs i).2).2

/-- The decision emitted by tick `i` of the sequence. -/
def tickDecision (cfg : ScalingConfig) (now : Int) (inputs : Nat → Int × Int)
    (st : CtrlState) (i : Nat) : ScaleDecision :=
  (makeScalingDecision cfg (tickStates cfg now inputs st i) now
    (inputs i).1 (inputs i).2).1

theorem ctrlState_up_update (st : CtrlState) (v w : Int) :
    ({ { st with scaleUpCounter := v } with scaleUpCounter := w } : CtrlState) =
      { st with scaleUpCounter := w } := rfl

theorem ctrlState_down_update (st : CtrlState) (v w : Int) :
    ({ { st with scaleDownCounter := v } with scaleDownCounter := w } : CtrlState) =
      { st with scaleDownCounter := w } := rfl

theorem tickStates_up_streak (cfg : ScalingConfig) (now : Int)
    (inputs : Nat → Int × Int) (st : CtrlState) (k : Nat)
    (hH : cfg.scaleUpHysteresis = (k : Int))
    (hcool : inCooldownPeriod cfg st now = false)
    (hu0 : st.scaleUpCounter = 0)
    (hcand : ∀ i, i < k →
      effectiveQueue cfg st.queueHistory (inputs i).1 ≥ cfg.scaleUpThreshold ∧
      max (min (effectiveQueue cfg st.queueHistory (inputs i).1) cfg.maxRunners)
        cfg.minRunners > (inputs i).2) :
    ∀ i, i < k →
      tickStates cfg now inputs st i = { st with scaleUpCounter := (i : Int) } := by
  intro i
  induction i with
  | zero =>
    intro _
    simp only [tickStates, Nat.cast_zero, ← hu0]
  | succ n ih =>
    intro hlt
    have hn : n < k := by omega
    simp only [tickStates]
    rw [ih hn]
    have hq' : effectiveQueue cfg
        ({ st with scaleUpCounter := (n : Int) } : CtrlState).queueHistory
        (inputs n).1 ≥ cfg.scaleUpThreshold := (hcand n hn).1
    have hd' : max (min (effectiveQueue cfg
        ({ st with scaleUpCounter := (n : Int) } : CtrlState).queueHistory
        (inputs n).1) cfg.maxRunners) cfg.minRunners > (inputs n).2 := (hcand n hn).2
    have hk' : ¬ (({ st with scaleUpCounter := (n : Int) } : CtrlState).scaleUpCounter
        + 1 ≥ cfg.scaleUpHysteresis) := by
      show ¬ ((n : Int) + 1 ≥ cfg.scaleUpHysteresis)
      rw [hH]
      omega
    rw [makeScalingDecision_up_pending cfg { st with scaleUpCounter := (n : Int) }
      now (inputs n).1 (inputs n).2 hcool hq' hd' hk', ctrlState_up_update]
    push_cast
    rfl

theorem tickStates_down_streak (cfg : ScalingConfig) (now : Int)
    (inputs : Nat → Int × Int) (st : CtrlState) (k : Nat)
    (hH : cfg.scaleDownHysteresis = (k : Int))
    (hcool : inCooldownPeriod cfg st now = false)
    (hd0 : st.scaleDownCounter = 0)
    (hcand : ∀ i, i < k →
      ¬ effectiveQueue cfg st.queueHistory (inputs i).1 ≥ cfg.scaleUpThreshold ∧
      effectiveQueue cfg st.queueHistory (inputs i).1 ≤ cfg.scaleDownThreshold ∧
      max (effectiveQueue cfg st.queueHistory (inputs i).1) cfg.minRunners
        < (inputs i).2) :
    ∀ i, i < k →
      tickStates cfg now inputs st i = { st with scaleDownCounter := (i : Int) } := by
  intro i
  induction i with
  | zero =>
    intro _
    simp only [tickStates, Nat.cast_zero, ← hd0]
  | succ n ih =>
    intro hlt
    have hn : n < k := by omega
    simp only [tickStates]
    rw [ih hn]
    have hq' : ¬ effectiveQueue cfg
        ({ st with scaleDownCounter := (n : Int) } : CtrlState).queueHistory
        (inputs n).1 ≥ cfg.scaleUpThreshold := (hcand n hn).1
    have hq2' : effectiveQueue cfg
        ({ st with scaleDownCounter := (n : Int) } : CtrlState).queueHistory
        (inputs n).1 ≤ cfg.scaleDownThreshold := (hcand n hn).2.1
    have hd' : max (effectiveQueue cfg
        ({ st with scaleDownCounter := (n : Int) } : CtrlState).queueHistory
        (inputs n).1) cfg.minRunners
        < (inputs n).2 := (hcand n hn).2.2
    have hk' : ¬ (({ st with scaleDownCounter := (n : Int) } : CtrlState).scaleDownCounter
        + 1 ≥ cfg.scaleDownHysteresis) := by
      show ¬ ((n : Int) + 1 ≥ cfg.scaleDownHysteresis)
      rw [hH]
      omega
    rw [makeScalingDecision_down_pending cfg { st with scaleDownCounter := (n : Int) }
      now (inputs n).1 (inputs n).2 hcool hq' hq2' hd' hk', ctrlState_down_update]
    push_cast
    rfl

/-- C2: with `ScaleUpHysteresis = k ≥ 1` and both counters starting at
zero, a run of consecutive up-candidate ticks (effective queue depth at
or above `Q_up` and clamped desired above current) yields, for each
tick `i` with `i + 1 < k`, action `none` with the hysteresis-pending
flag and reason `hysteresis_check_(i+1)_of_k`; the `k`-th consecutive
up-candidate tick yields action `up` with the clamped desired count —
and symmetrically for down candidates with `ScaleDownHysteresis`. -/
theorem hysteresis_gate (cfg : ScalingConfig) (st : CtrlState) (now : Int)
    (kU kD : Nat) (hkU : 1 ≤ kU) (hkD : 1 ≤ kD)
    (hHU : cfg.scaleUpHysteresis = (kU : Int))
    (hHD : cfg.scaleDownHysteresis = (kD : Int))
    (hcool : inCooldownPeriod cfg st now = false)
    (hu0 : st.scaleUpCounter = 0) (hd0 : st.scaleDownCounter = 0)
    (inU inD : Nat → Int × Int)
    (hcandU : ∀ i, i < kU →
      effectiveQueue cfg st.queueHistory (inU i).1 ≥ cfg.scaleUpThreshold ∧
      max (min (effectiveQueue cfg st.queueHistory (inU i).1) cfg.maxRunners)
        cfg.minRunners > (inU i).2)
    (hcandD : ∀ i, i < kD →
      ¬ effectiveQueue cfg st.queueHistory (inD i).1 ≥ cfg.scaleUpThreshold ∧
      effectiveQueue cfg st.queueHistory (inD i).1 ≤ cfg.scaleDownThreshold ∧
      max (effectiveQueue cfg st.queueHistory (inD i).1) cfg.minRunners
        < (inD i).2) :
    (∀ i, i + 1 < kU →
      tickDecision cfg now inU st i =
        { baseDecision (inU i).1 (inU i).2 with
            hysteresisHit := true
            reason := hysteresisReason ((i : Int) + 1) cfg.scaleUpHysteresis }) ∧
    (tickDecision cfg now inU st (kU - 1) =
      { baseDecision (inU (kU - 1)).1 (inU (kU - 1)).2 with
          action := .up
          desiredCount := max (min (effectiveQueue cfg st.queueHistory
            (inU (kU - 1)).1) cfg.maxRunners) cfg.minRunners
          reason := "queue_above_threshold" }) ∧
    (∀ i, i + 1 < kD →
      tickDecision cfg now inD st i =
        { baseDecision (inD i).1 (inD i).2 with
            hysteresisHit := true
            reason := hysteresisReason ((i : Int) + 1) cfg.scaleDownHysteresis }) ∧
    (tickDecision cfg now inD st (kD - 1) =
      { baseDecision (inD (kD - 1)).1 (inD (kD - 1)).2 with
          action := .down
          desiredCount := max (effectiveQueue cfg st.queueHistory
            (inD (kD - 1)).1) cfg.minRunners
          reason := "queue_below_threshold" }) := by
  refine ⟨?_, ?_, ?_, ?_⟩
  · intro i hi
    unfold tickDecision
    rw [tickStates_up_streak cfg now inU st kU hHU hcool hu0 hcandU i (by omega)]
    have hk' : ¬ (({ st with scaleUpCounter := (i : Int) } : CtrlState).scaleUpCounter
        + 1 ≥ cfg.scaleUpHysteresis) := by
      show ¬ ((i : Int) + 1 ≥ cfg.scaleUpHysteresis)
      rw [hHU]
      omega
    rw [makeScalingDecision_up_pending cfg { st with scaleUpCounter := (i : Int) }
      now (inU i).1 (inU i).2 hcool
      ((hcandU i (by omega)).1) ((hcandU i (by omega)).2) hk']
  · unfold tickDecision
    rw [tickStates_up_streak cfg now inU st kU hHU hcool hu0 hcandU (kU - 1)
      (by omega)]
    have hk' : ({ st with scaleUpCounter := ((kU - 1 : Nat) : Int) } : CtrlState).scaleUpCounter
        + 1 ≥ cfg.scaleUpHysteresis := by
      show ((kU - 1 : Nat) : Int) + 1 ≥ cfg.scaleUpHysteresis
      rw [hHU]
      omega
    rw [makeScalingDecision_up_fire cfg
      { st with scaleUpCounter := ((kU - 1 : Nat) : Int) }
      now (inU (kU - 1)).1 (inU (kU - 1)).2 hcool
      ((hcandU (kU - 1) (by omega)).1) ((hcandU (kU - 1) (by omega)).2) hk']
  · intro i hi
    unfold tickDecision
    rw [tickStates_down_streak cfg now inD st kD hHD hcool hd0 hcandD i (by omega)]
    have hk' : ¬ (({ st with scaleDownCounter := (i : Int) } : CtrlState).scaleDownCounter
        + 1 ≥ cfg.scaleDownHysteresis) := by
      show ¬ ((i : Int) + 1 ≥ cfg.scaleDownHysteresis)
      rw [hHD]
      omega
    rw [makeScalingDecision_down_pending cfg { st with scaleDownCounter := (i : Int) }
      now (inD i).1 (inD i).2 hcool
      ((hcandD i (by omega)).1) ((hcandD i (by omega)).2.1)
      ((hcandD i (by omega)).2.2) hk']
  · unfold tickDecision
    rw [tickStates_down_streak cfg now inD st kD hHD hcool hd0 hcandD (kD - 1)
      (by omega)]
    have hk' : ({ st with scaleDownCounter := ((kD - 1 : Nat) : Int) } : CtrlState).scaleDownCounter
        + 1 ≥ cfg.scaleDownHysteresis := by
      show ((kD - 1 : Nat) : Int) + 1 ≥ cfg.scaleDownHysteresis
      rw [hHD]
      omega
    rw [makeScalingDecision_down_fire cfg
      { st with scaleDownCounter := ((kD - 1 : Nat) : Int) }
      now (inD (kD - 1)).1 (inD (kD - 1)).2 hcool
      ((hcandD (kD - 1) (by omega)).1) ((hcandD (kD - 1) (by omega)).2.1)
      ((hcandD (kD - 1) (by omega)).2.2) hk']

/-- The spec's hysteresis-gate scenario configuration: `H_up = 3`,
`H_down = 2`, thresholds 5/0, bounds 1/10, no cooldown. -/
def cfgGate : ScalingConfig := ⟨1, 10, 5, 0, 3, 2, 0, false, true⟩

/-- Constant up-candidate tick input: queue 7, current 2. -/
def inUpGate : Nat → Int × Int := fun _ => (7, 2)

/-- Constant down-candidate tick input: queue 0, current 5. -/
def inDownGate : Nat → Int × Int := fun _ => (0, 5)

theorem hysteresis_gate_witness :
    ((1 : Nat) ≤ 3 ∧ (1 : Nat) ≤ 2 ∧
     inCooldownPeriod cfgGate initialState 0 = false ∧
     (∀ i, i < 3 →
       effectiveQueue cfgGate initialState.queueHistory (inUpGate i).1 ≥
         cfgGate.scaleUpThreshold ∧
       max (min (effectiveQueue cfgGate initialState.queueHistory (inUpGate i).1)
         cfgGate.maxRunners) cfgGate.minRunners > (inUpGate i).2)) ∧
    ((∀ i, i + 1 < 3 →
      tickDecision cfgGate 0 inUpGate initialState i =
        { baseDecision 7 2 with
            hysteresisHit := true
            reason := hysteresisReason ((i : Int) + 1) cfgGate.scaleUpHysteresis }) ∧
     (tickDecision cfgGate 0 inUpGate initialState (3 - 1) =
        { baseDecision 7 2 with
            action := .up
            desiredCount := max (min (effectiveQueue cfgGate
              initialState.queueHistory 7) cfgGate.maxRunners) cfgGate.minRunners
            reason := "queue_above_threshold" }) ∧
     (∀ i, i + 1 < 2 →
      tickDecision cfgGate 0 inDownGate initialState i =
        { baseDecision 0 5 with
            hysteresisHit := true
            reason := hysteresisReason ((i : Int) + 1) cfgGate.scaleDownHysteresis }) ∧
     (tickDecision cfgGate 0 inDownGate initialState (2 - 1) =
        { baseDecision 0 5 with
            action := .down
            desiredCount := max (effectiveQueue cfgGate
              initialState.queueHistory 0) cfgGate.minRunners
            reason := "queue_below_threshold" })) :=
  ⟨⟨by decide, by decide, by decide, by decide⟩,
   hysteresis_gate cfgGate initialState 0 3 2 (by decide) (by decide)
     (by decide) (by decide) (by decide) rfl rfl inUpGate inDownGate
     (by decide) (by decide)⟩

end Zeno
